import Mathlib

/-!
Verification of the GDJS export pipeline (`GDJS/IDE/ExporterHelper.h`).

The header declares `PreviewExportOptions` (with its inline constructor and
setters) and the `ExporterHelper` pipeline stages (module set building,
incremental hash check, include materialization and merging, template
substitution, orchestration).  The inline code of the header is embedded
directly; the stages whose bodies live in `ExporterHelper.cpp` (absent from
the sources) are modelled from the specification, as marked on each
definition.
-/

namespace GdjsExport

/-- A project, as the export pipeline observes it: its layouts (scenes) in
project order and its external source files in project order. -/
structure GdProject where
  layouts : List String
  externalSourceFiles : List String
deriving Repr, DecidableEq

/-- Insert-or-replace into an association list, mirroring
`std::map::operator[]` followed by assignment: the first entry with the same
key is overwritten in place, otherwise the entry is appended. -/
def mapInsert {α : Type} (m : List (String × α)) (k : String) (v : α) :
    List (String × α) :=
  match m with
  | [] => [(k, v)]
  | (k', v') :: rest =>
      if k' = k then (k, v) :: rest else (k', v') :: mapInsert rest k v

/-- Lookup in an association list, mirroring `std::map::find`. -/
def mapFind {α : Type} (m : List (String × α)) (k : String) : Option α :=
  match m with
  | [] => none
  | (k', v') :: rest => if k' = k then some v' else mapFind rest k

/-- The options used to export a project for a preview
(`PreviewExportOptions` in `ExporterHelper.h`).  The C++ struct also holds a
reference to the project; the maps and strings are embedded directly. -/
structure PreviewExportOptions where
  project : GdProject
  exportPath : String
  debuggerServerAddress : String
  debuggerServerPort : String
  layoutName : String
  externalLayoutName : String
  includeFileHashes : List (String × Int)
  projectDataOnlyExport : Bool
deriving Repr, DecidableEq

/-- The constructor `PreviewExportOptions(project_, exportPath_)`: it
initializes `project`, `exportPath` and `projectDataOnlyExport(false)`; the
remaining `gd::String` fields and the `std::map` field are
default-constructed, hence empty. -/
def mkPreviewExportOptions (project : GdProject) (exportPath : String) :
    PreviewExportOptions :=
  { project := project
    exportPath := exportPath
    debuggerServerAddress := ""
    debuggerServerPort := ""
    layoutName := ""
    externalLayoutName := ""
    includeFileHashes := []
    projectDataOnlyExport := false }

/-- `SetDebuggerServerAddress(address, port)`: assigns
`debuggerServerAddress` and `debuggerServerPort`, returns the options. -/
def SetDebuggerServerAddress (o : PreviewExportOptions)
    (address port : String) : PreviewExportOptions :=
  { o with debuggerServerAddress := address, debuggerServerPort := port }

/-- `SetLayoutName(layoutName_)`: assigns `layoutName`, returns the
options. -/
def SetLayoutName (o : PreviewExportOptions) (layoutName_ : String) :
    PreviewExportOptions :=
  { o with layoutName := layoutName_ }

/-- `SetExternalLayoutName(externalLayoutName_)`: assigns
`externalLayoutName`, returns the options. -/
def SetExternalLayoutName (o : PreviewExportOptions)
    (externalLayoutName_ : String) : PreviewExportOptions :=
  { o with externalLayoutName := externalLayoutName_ }

/-- `SetIncludeFileHash(includeFile, hash)`: performs
`includeFileHashes[includeFile] = hash`, returns the options. -/
def SetIncludeFileHash (o : PreviewExportOptions) (includeFile : String)
    (hash : Int) : PreviewExportOptions :=
  { o with includeFileHashes := mapInsert o.includeFileHashes includeFile hash }

/-- `SetProjectDataOnlyExport(enable)`: assigns `projectDataOnlyExport`,
returns the options. -/
def SetProjectDataOnlyExport (o : PreviewExportOptions) (enable : Bool) :
    PreviewExportOptions :=
  { o with projectDataOnlyExport := enable }

/-- Modelled from the spec: the Incremental Hash Tracker contract
`shouldRegenerate(moduleId, freshContentHash, priorHash) -> bool` (its body
lives in `ExporterHelper.cpp`, which is absent from the sources; the header
only documents `SetIncludeFileHash` as feeding it).  Regeneration is
required when a full rebuild is forced, when no prior hash is known, or
when the prior hash differs from the fresh one. -/
def shouldRegenerate (_moduleId : String) (freshContentHash : Int)
    (priorHash : Option Int) (forceFullRebuild : Bool) : Bool :=
  forceFullRebuild ||
    match priorHash with
    | none => true
    | some h => decide (h ≠ freshContentHash)

/-- The prior hash for a module is looked up in the caller-supplied
`includeFileHashes` map of the preview options. -/
def shouldRegenerateFor (options : PreviewExportOptions) (moduleId : String)
    (freshContentHash : Int) (forceFullRebuild : Bool) : Bool :=
  shouldRegenerate moduleId freshContentHash
    (mapFind options.includeFileHashes moduleId) forceFullRebuild

/-- Ordinal-indexed generated file names: `base ++ i ++ ".js"` for `count`
consecutive indices starting at `start`. -/
def codeFileNamesFrom (base : String) : Nat → Nat → List String
  | _, 0 => []
  | start, count + 1 =>
      (base ++ toString start ++ ".js") ::
        codeFileNamesFrom base (start + 1) count

/-- Modelled from the spec: `ExportEventsCode` (body in
`ExporterHelper.cpp`, absent from the sources; the header documents that
files are named `codeX.js`, `X` being the number of the layout in the
project).  It appends one generated-code module per layout, in project
order, to the includes list it is given. -/
def exportEventsCode (project : GdProject) (includesFiles : List String) :
    List String :=
  includesFiles ++ codeFileNamesFrom "code" 0 project.layouts.length

/-- Modelled from the spec: `ExportExternalSourceFiles` (body in
`ExporterHelper.cpp`, absent from the sources; the header documents that
files are named `ext-codeX.js`, `X` being the index of the external source
file in the project).  It appends one module per external source file, in
project order. -/
def exportExternalSourceFiles (project : GdProject)
    (includesFiles : List String) : List String :=
  includesFiles ++
    codeFileNamesFrom "ext-code" 0 project.externalSourceFiles.length

/-- Runtime-core library files, always included
(representative members; the full list lives in `ExporterHelper.cpp`,
absent from the sources). -/
def runtimeCoreFiles : List String :=
  ["libs/jshashtable.js", "gd.js", "libs/hshg.js", "inputmanager.js",
   "timemanager.js", "runtimeobject.js", "runtimescene.js",
   "runtimegame.js"]

/-- Files of the Pixi renderer family (representative members). -/
def pixiRendererFiles : List String :=
  ["pixi-renderers/pixi.js",
   "pixi-renderers/pixi-filters-tools.js",
   "pixi-renderers/runtimegame-pixi-renderer.js",
   "pixi-renderers/runtimescene-pixi-renderer.js",
   "pixi-renderers/runtimeobject-pixi-renderer.js"]

/-- Files of the Cocos2d renderer family (representative members). -/
def cocosRendererFiles : List String :=
  ["cocos-renderers/cocos-director-manager.js",
   "cocos-renderers/runtimegame-cocos-renderer.js",
   "cocos-renderers/runtimescene-cocos-renderer.js",
   "cocos-renderers/runtimeobject-cocos-renderer.js"]

/-- The WebSockets debugger client file. -/
def websocketDebuggerClientFile : String :=
  "websocket-debugger-client/websocket-debugger-client.js"

/-- Append a file to the includes list unless it is already present. -/
def insertUnique (files : List String) (f : String) : List String :=
  if f ∈ files then files else files ++ [f]

/-- Inclusion stage: the runtime-core files, always added. -/
def addCoreLibs (files : List String) : List String :=
  runtimeCoreFiles.foldl insertUnique files

/-- Inclusion stage: the Pixi renderer family, added as a whole unit when
its flag is set. -/
def addPixiLibs (b : Bool) (files : List String) : List String :=
  if b then pixiRendererFiles.foldl insertUnique files else files

/-- Inclusion stage: the Cocos2d renderer family, added as a whole unit
when its flag is set. -/
def addCocosLibs (b : Bool) (files : List String) : List String :=
  if b then cocosRendererFiles.foldl insertUnique files else files

/-- Inclusion stage: the WebSockets debugger client, appended when a
debugger endpoint is requested. -/
def addDebuggerClientLib (b : Bool) (files : List String) : List String :=
  if b then insertUnique files websocketDebuggerClientFile else files

/-- Modelled from the spec: `AddLibsInclude(pixiRenderers, cocosRenderers,
websocketDebuggerClient, includesFiles)` (body in `ExporterHelper.cpp`,
absent from the sources).  Runtime-core files are always added; the files
of each renderer family are added as a whole unit when the family's flag is
set; the debugger client is appended when requested. -/
def AddLibsInclude (pixiRenderers cocosRenderers websocketDebuggerClient :
    Bool) (includesFiles : List String) : List String :=
  addDebuggerClientLib websocketDebuggerClient
    (addCocosLibs cocosRenderers
      (addPixiLibs pixiRenderers (addCoreLibs includesFiles)))

/-- Modelled from the spec: `RemoveIncludes(pixiRenderers, cocosRenderers,
includesFiles)` (body in `ExporterHelper.cpp`, absent from the sources):
removes every include file that belongs to the Pixi renderer family when
`pixiRenderers` is set, and to the Cocos2d family when `cocosRenderers` is
set, regardless of how the file entered the list. -/
def RemoveIncludes (pixiRenderers cocosRenderers : Bool)
    (includesFiles : List String) : List String :=
  includesFiles.filter fun f =>
    !((pixiRenderers && decide (f ∈ pixiRendererFiles)) ||
      (cocosRenderers && decide (f ∈ cocosRendererFiles)))

/-- Modelled from the spec: one builder invocation over the library
includes, as performed by the exporters: a defensive exclusion pass removes
the renderer families that are not requested, then the inclusion pass adds
the requested ones. -/
def buildRendererIncludes (pixiRenderers cocosRenderers
    websocketDebuggerClient : Bool) (includesFiles : List String) :
    List String :=
  AddLibsInclude pixiRenderers cocosRenderers websocketDebuggerClient
    (RemoveIncludes (!pixiRenderers) (!cocosRenderers) includesFiles)

/-- The logical role of a module, as far as the merge step of
`ExportIncludesAndLibs` is concerned: a static library file, a
generated-code file, or a module explicitly excluded from merging. -/
inductive ModuleKind where
  | staticLib
  | generated
  | nonMergeable
deriving Repr, DecidableEq

/-- One entry of the ordered module list: an output path and its role. -/
structure Module where
  path : String
  kind : ModuleKind
deriving Repr, DecidableEq

/-- A module may be merged by the minifier unless it is explicitly marked
non-mergeable. -/
def mergeable (m : Module) : Bool :=
  match m.kind with
  | ModuleKind.nonMergeable => false
  | _ => true

/-- The single replacement module produced by the external minifier. -/
def mergedModule : Module := ⟨"code.js", ModuleKind.staticLib⟩

/-- Modelled from the spec: the merge step of `ExportIncludesAndLibs`
(body in `ExporterHelper.cpp`, absent from the sources): the first
contiguous run of mergeable modules is collapsed into the single merged
module, placed at the run's position; a non-mergeable module ends the run,
and modules beyond it are left as they are. -/
def mergeContiguousRun : List Module → List Module
  | [] => []
  | m :: rest =>
      if mergeable m then
        mergedModule :: List.dropWhile mergeable (m :: rest)
      else
        m :: mergeContiguousRun rest

/-- Modelled from the spec: `ExportIncludesAndLibs(includesFiles,
exportDir, minify)` (body in `ExporterHelper.cpp`, absent from the
sources), restricted to its effect on the module list: without
minification the list is unchanged; with minification the contiguous
mergeable run is merged into one replacement module. -/
def ExportIncludesAndLibs (includesFiles : List Module) (minify : Bool) :
    List Module :=
  if minify then mergeContiguousRun includesFiles else includesFiles

/-- One piece of a template document: literal text, or a placeholder
marker to be substituted. -/
inductive TemplatePart where
  | text (s : String)
  | marker (name : String)
deriving Repr, DecidableEq

/-- The names of the markers present in a template. -/
def markerNames : List TemplatePart → List String
  | [] => []
  | TemplatePart.text _ :: rest => markerNames rest
  | TemplatePart.marker n :: rest => n :: markerNames rest

/-- Modelled from the spec: the substitution performed by
`CompleteIndexFile` / `ExportPixiIndexFile` (bodies in
`ExporterHelper.cpp`, absent from the sources): each marker present in the
template (such as the `GDJS_CODE_FILES` or `GDJS_ADDITIONAL_SPEC`
annotations) is replaced by its matching content; a marker with no
matching option makes the export fail with an error naming that marker
instead of being silently deleted. -/
def CompleteIndexFile (ctx : List (String × String)) :
    List TemplatePart → Except String String
  | [] => Except.ok ""
  | TemplatePart.text s :: rest =>
      match CompleteIndexFile ctx rest with
      | Except.ok doc => Except.ok (s ++ doc)
      | Except.error e => Except.error e
  | TemplatePart.marker n :: rest =>
      match mapFind ctx n with
      | some replacement =>
          match CompleteIndexFile ctx rest with
          | Except.ok doc => Except.ok (replacement ++ doc)
          | Except.error e => Except.error e
      | none => Except.error n

/-- The exporter state observed through `GetLastError`
(`ExporterHelper.lastError` in the header). -/
structure ExporterHelper where
  lastError : String
deriving Repr, DecidableEq

/-- `GetLastError()`: returns the error that occurred during the last
export. -/
def GetLastError (helper : ExporterHelper) : String := helper.lastError

/-- Modelled from the spec: the orchestration of
`ExportProjectForPixiPreview` (body in `ExporterHelper.cpp`, absent from
the sources): the stages run strictly in sequence; the first failing stage
stores its message in `lastError` and the export returns `false` without
running later stages; when every stage succeeds the export returns `true`.
Each list entry is the `Except` outcome of one pipeline stage, in stage
order. -/
def ExportProjectForPixiPreview (helper : ExporterHelper)
    (stages : List (Except String Unit)) : ExporterHelper × Bool :=
  match stages with
  | [] => (helper, true)
  | Except.ok _ :: rest => ExportProjectForPixiPreview helper rest
  | Except.error e :: _ => ({ helper with lastError := e }, false)

/-- A debugger endpoint is configured when both the address and the port
have been set on the options. -/
def hasDebuggerEndpoint (o : PreviewExportOptions) : Bool :=
  decide (o.debuggerServerAddress ≠ "") &&
    decide (o.debuggerServerPort ≠ "")

/-- Modelled from the spec: the module-set construction of
`ExportProjectForPixiPreview` for the preview target (body in
`ExporterHelper.cpp`, absent from the sources): Pixi renderers on, Cocos2d
off, the debugger client exactly when a debugger endpoint is configured;
then the per-scene generated-code modules and the external source files
are appended in project order. -/
def buildPreviewModuleList (o : PreviewExportOptions) : List String :=
  exportExternalSourceFiles o.project
    (exportEventsCode o.project
      (AddLibsInclude true false (hasDebuggerEndpoint o) []))

theorem mapInsert_mapInsert_same {α : Type} (m : List (String × α))
    (k : String)
    (v₁ v₂ : α) : mapInsert (mapInsert m k v₁) k v₂ = mapInsert m k v₂ := by
  induction m with
  | nil => simp [mapInsert]
  | cons hd tl ih =>
      obtain ⟨k', v'⟩ := hd
      by_cases h : k' = k
      · simp [mapInsert, h]
      · simp [mapInsert, h, ih]

theorem mapFind_mapInsert_same {α : Type} (m : List (String × α))
    (k : String)
    (v : α) : mapFind (mapInsert m k v) k = some v := by
  induction m with
  | nil => simp [mapInsert, mapFind]
  | cons hd tl ih =>
      obtain ⟨k', v'⟩ := hd
      by_cases h : k' = k
      · simp [mapInsert, mapFind, h]
      · simp [mapInsert, mapFind, h, ih]

theorem codeFileNamesFrom_length (base : String) (start count : Nat) :
    (codeFileNamesFrom base start count).length = count := by
  induction count generalizing start with
  | zero => rfl
  | succ n ih => simp [codeFileNamesFrom, ih]

theorem codeFileNamesFrom_getElem (base : String) (start count i : Nat)
    (h : i < count) :
    (codeFileNamesFrom base start count)[i]?
      = some (base ++ toString (start + i) ++ ".js") := by
  induction count generalizing start i with
  | zero => omega
  | succ n ih =>
      cases i with
      | zero => simp [codeFileNamesFrom]
      | succ j =>
          have hj : j < n := by omega
          have := ih (start + 1) j hj
          simp only [codeFileNamesFrom, List.getElem?_cons_succ, this]
          have harith : start + 1 + j = start + (j + 1) := by omega
          rw [harith]

theorem mem_insertUnique (files : List String) (a x : String) :
    x ∈ insertUnique files a ↔ x ∈ files ∨ x = a := by
  by_cases h : a ∈ files
  · simp only [insertUnique, if_pos h]
    constructor
    · exact Or.inl
    · rintro (hx | rfl)
      · exact hx
      · exact h
  · simp [insertUnique, h]

theorem mem_foldl_insertUnique (adds files : List String) (x : String) :
    x ∈ adds.foldl insertUnique files ↔ x ∈ files ∨ x ∈ adds := by
  induction adds generalizing files with
  | nil => simp
  | cons a tl ih =>
      simp only [List.foldl_cons, ih, mem_insertUnique, List.mem_cons]
      tauto

theorem foldl_insertUnique_of_mem (adds files : List String)
    (h : ∀ a ∈ adds, a ∈ files) : adds.foldl insertUnique files = files := by
  induction adds with
  | nil => rfl
  | cons a tl ih =>
      have ha : a ∈ files := h a (List.mem_cons_self a tl)
      simp only [List.foldl_cons, insertUnique, if_pos ha]
      exact ih fun b hb => h b (List.mem_cons_of_mem a hb)

theorem mem_addCoreLibs (files : List String) (x : String) :
    x ∈ addCoreLibs files ↔ x ∈ files ∨ x ∈ runtimeCoreFiles :=
  mem_foldl_insertUnique runtimeCoreFiles files x

theorem mem_addPixiLibs (b : Bool) (files : List String) (x : String) :
    x ∈ addPixiLibs b files ↔
      x ∈ files ∨ (b = true ∧ x ∈ pixiRendererFiles) := by
  cases b <;> simp [addPixiLibs, mem_foldl_insertUnique]

theorem mem_addCocosLibs (b : Bool) (files : List String) (x : String) :
    x ∈ addCocosLibs b files ↔
      x ∈ files ∨ (b = true ∧ x ∈ cocosRendererFiles) := by
  cases b <;> simp [addCocosLibs, mem_foldl_insertUnique]

theorem mem_addDebuggerClientLib (b : Bool) (files : List String)
    (x : String) :
    x ∈ addDebuggerClientLib b files ↔
      x ∈ files ∨ (b = true ∧ x = websocketDebuggerClientFile) := by
  cases b <;> simp [addDebuggerClientLib, mem_insertUnique]

theorem mem_AddLibsInclude (p c d : Bool) (L : List String) (x : String) :
    x ∈ AddLibsInclude p c d L ↔
      x ∈ L ∨ x ∈ runtimeCoreFiles ∨
        (p = true ∧ x ∈ pixiRendererFiles) ∨
        (c = true ∧ x ∈ cocosRendererFiles) ∨
        (d = true ∧ x = websocketDebuggerClientFile) := by
  simp only [AddLibsInclude, mem_addDebuggerClientLib, mem_addCocosLibs,
    mem_addPixiLibs, mem_addCoreLibs]
  tauto

theorem core_not_pixi : ∀ x ∈ runtimeCoreFiles, x ∉ pixiRendererFiles := by
  decide

theorem core_not_cocos : ∀ x ∈ runtimeCoreFiles, x ∉ cocosRendererFiles := by
  decide

theorem cocos_not_pixi : ∀ x ∈ cocosRendererFiles, x ∉ pixiRendererFiles := by
  decide

theorem pixi_not_cocos : ∀ x ∈ pixiRendererFiles, x ∉ cocosRendererFiles := by
  decide

theorem dbgfile_not_pixi : websocketDebuggerClientFile ∉ pixiRendererFiles := by
  decide

theorem dbgfile_not_cocos :
    websocketDebuggerClientFile ∉ cocosRendererFiles := by
  decide

theorem mem_RemoveIncludes (p c : Bool) (L : List String) (x : String) :
    x ∈ RemoveIncludes p c L ↔
      x ∈ L ∧ ¬(p = true ∧ x ∈ pixiRendererFiles) ∧
        ¬(c = true ∧ x ∈ cocosRendererFiles) := by
  cases p <;> cases c <;> simp [RemoveIncludes, List.mem_filter]

theorem RemoveIncludes_of_build (p c d : Bool) (L : List String) :
    RemoveIncludes (!p) (!c) (buildRendererIncludes p c d L)
      = buildRendererIncludes p c d L := by
  unfold RemoveIncludes
  apply List.filter_eq_self.mpr
  intro x hx
  rw [buildRendererIncludes, mem_AddLibsInclude] at hx
  rcases hx with hR | hcore | ⟨hp, hpixi⟩ | ⟨hc, hcocos⟩ | ⟨_, rfl⟩
  · unfold RemoveIncludes at hR
    exact (List.mem_filter.mp hR).2
  · simp [core_not_pixi x hcore, core_not_cocos x hcore]
  · simp [hp, pixi_not_cocos x hpixi]
  · simp [hc, cocos_not_pixi x hcocos]
  · simp [dbgfile_not_pixi, dbgfile_not_cocos]

theorem addCoreLibs_noop (files : List String)
    (h : ∀ a ∈ runtimeCoreFiles, a ∈ files) : addCoreLibs files = files :=
  foldl_insertUnique_of_mem runtimeCoreFiles files h

theorem addPixiLibs_noop (b : Bool) (files : List String)
    (h : b = true → ∀ a ∈ pixiRendererFiles, a ∈ files) :
    addPixiLibs b files = files := by
  cases b with
  | false => rfl
  | true => exact foldl_insertUnique_of_mem _ _ (h rfl)

theorem addCocosLibs_noop (b : Bool) (files : List String)
    (h : b = true → ∀ a ∈ cocosRendererFiles, a ∈ files) :
    addCocosLibs b files = files := by
  cases b with
  | false => rfl
  | true => exact foldl_insertUnique_of_mem _ _ (h rfl)

theorem addDebuggerClientLib_noop (b : Bool) (files : List String)
    (h : b = true → websocketDebuggerClientFile ∈ files) :
    addDebuggerClientLib b files = files := by
  cases b with
  | false => rfl
  | true => simp [addDebuggerClientLib, insertUnique, h rfl]

theorem AddLibsInclude_of_build (p c d : Bool) (L : List String) :
    AddLibsInclude p c d (buildRendererIncludes p c d L)
      = buildRendererIncludes p c d L := by
  have hmem : ∀ x, (x ∈ runtimeCoreFiles ∨
        (p = true ∧ x ∈ pixiRendererFiles) ∨
        (c = true ∧ x ∈ cocosRendererFiles) ∨
        (d = true ∧ x = websocketDebuggerClientFile)) →
      x ∈ buildRendererIncludes p c d L := by
    intro x hx
    rw [buildRendererIncludes, mem_AddLibsInclude]
    tauto
  rw [AddLibsInclude,
    addCoreLibs_noop _ (fun a ha => hmem a (Or.inl ha)),
    addPixiLibs_noop _ _
      (fun hb a ha => hmem a (Or.inr (Or.inl ⟨hb, ha⟩))),
    addCocosLibs_noop _ _
      (fun hb a ha => hmem a (Or.inr (Or.inr (Or.inl ⟨hb, ha⟩)))),
    addDebuggerClientLib_noop _ _
      (fun hb => hmem _ (Or.inr (Or.inr (Or.inr ⟨hb, rfl⟩))))]

theorem not_pixi_of_mem_build (cocos dbg : Bool) (L : List String)
    (x : String) (hx : x ∈ buildRendererIncludes false cocos dbg L) :
    x ∉ pixiRendererFiles := by
  rw [buildRendererIncludes, mem_AddLibsInclude] at hx
  rcases hx with hR | hcore | ⟨hp, _⟩ | ⟨_, hcocos⟩ | ⟨_, rfl⟩
  · rw [mem_RemoveIncludes] at hR
    intro hmem
    exact hR.2.1 ⟨rfl, hmem⟩
  · exact core_not_pixi x hcore
  · cases hp
  · exact cocos_not_pixi x hcocos
  · exact dbgfile_not_pixi

theorem not_cocos_of_mem_build (pixi dbg : Bool) (L : List String)
    (x : String) (hx : x ∈ buildRendererIncludes pixi false dbg L) :
    x ∉ cocosRendererFiles := by
  rw [buildRendererIncludes, mem_AddLibsInclude] at hx
  rcases hx with hR | hcore | ⟨_, hpixi⟩ | ⟨hc, _⟩ | ⟨_, rfl⟩
  · rw [mem_RemoveIncludes] at hR
    intro hmem
    exact hR.2.2 ⟨rfl, hmem⟩
  · exact core_not_cocos x hcore
  · exact pixi_not_cocos x hpixi
  · cases hc
  · exact dbgfile_not_cocos

/-- C3: when a renderer family's flag is off, no file of that family
survives a builder invocation, regardless of how it entered the input list
(in particular when it was added by `AddLibsInclude` earlier in the same
invocation), and a builder invocation is idempotent: repeating the
exclude/include passes does not change the list. -/
theorem c3_renderer_exclusion_idempotent (L : List String)
    (pixi cocos dbg : Bool) :
    (∀ x ∈ buildRendererIncludes false cocos dbg L,
      x ∉ pixiRendererFiles) ∧
    (∀ x ∈ buildRendererIncludes pixi false dbg L,
      x ∉ cocosRendererFiles) ∧
    (∀ x ∈ buildRendererIncludes false cocos dbg
        (AddLibsInclude true cocos dbg L), x ∉ pixiRendererFiles) ∧
    (∀ x ∈ buildRendererIncludes pixi false dbg
        (AddLibsInclude pixi true dbg L), x ∉ cocosRendererFiles) ∧
    buildRendererIncludes pixi cocos dbg
        (buildRendererIncludes pixi cocos dbg L)
      = buildRendererIncludes pixi cocos dbg L := by
  refine ⟨fun x hx => not_pixi_of_mem_build cocos dbg L x hx,
    fun x hx => not_cocos_of_mem_build pixi dbg L x hx,
    fun x hx => not_pixi_of_mem_build cocos dbg _ x hx,
    fun x hx => not_cocos_of_mem_build pixi dbg _ x hx, ?_⟩
  rw [buildRendererIncludes, RemoveIncludes_of_build,
    AddLibsInclude_of_build]

/-- Witness for C3: with the Pixi flag off, the Pixi runtime file that was
present in the input list is gone from the output, and a concrete builder
invocation is idempotent. -/
theorem c3_witness :
    "pixi-renderers/pixi.js" ∉
      buildRendererIncludes false true false
        ["pixi-renderers/pixi.js", "gd.js"] ∧
    buildRendererIncludes true false true
        (buildRendererIncludes true false true ["extension.js"])
      = buildRendererIncludes true false true ["extension.js"] :=
  ⟨fun h =>
      (c3_renderer_exclusion_idempotent
          ["pixi-renderers/pixi.js", "gd.js"] false true false).1
        "pixi-renderers/pixi.js" h (by decide),
    (c3_renderer_exclusion_idempotent ["extension.js"] true false
        true).2.2.2.2⟩

/-- C1: `shouldRegenerate(moduleId, freshContentHash, priorHash)` returns
`false` exactly when no full rebuild is forced and the prior hash is
present and equal to the fresh hash; in every other case (missing prior
entry in `includeFileHashes`, differing hash, forced full rebuild) it
returns `true`. -/
theorem c1_should_regenerate_iff (moduleId : String) (fresh : Int)
    (prior : Option Int) (forced : Bool) :
    (shouldRegenerate moduleId fresh prior forced = false ↔
      forced = false ∧ prior = some fresh) ∧
    (∀ (options : PreviewExportOptions) (m : String),
      mapFind options.includeFileHashes m = none →
      shouldRegenerateFor options m fresh forced = true) := by
  constructor
  · cases forced <;> cases prior <;>
      simp [shouldRegenerate]
  · intro options m hnone
    cases forced <;> simp [shouldRegenerateFor, shouldRegenerate, hnone]

/-- Witness for C1 at concrete inputs: equal hashes with no forced rebuild
skip regeneration, and a missing entry in an empty hash map forces it. -/
theorem c1_witness :
    shouldRegenerate "code0.js" 42 (some 42) false = false ∧
    shouldRegenerateFor
      (mkPreviewExportOptions ⟨["Scene"], []⟩ "/preview") "code0.js" 42
      false = true :=
  ⟨(c1_should_regenerate_iff "code0.js" 42 (some 42) false).1.mpr
      ⟨rfl, rfl⟩,
    (c1_should_regenerate_iff "code0.js" 42 (some 42) false).2
      (mkPreviewExportOptions ⟨["Scene"], []⟩ "/preview") "code0.js" rfl⟩

/-- C2: the module set builder plans exactly one generated-code module per
layout, named `codeX.js` with `X` the layout's ordinal position in the
project, and exactly one module per external source file, named
`ext-codeX.js` with `X` the file's ordinal position. -/
theorem c2_ordinal_module_names (p : GdProject) (i j : Nat)
    (hi : i < p.layouts.length) (hj : j < p.externalSourceFiles.length) :
    (exportEventsCode p []).length = p.layouts.length ∧
    (exportEventsCode p [])[i]? = some ("code" ++ toString i ++ ".js") ∧
    (exportExternalSourceFiles p []).length
      = p.externalSourceFiles.length ∧
    (exportExternalSourceFiles p [])[j]?
      = some ("ext-code" ++ toString j ++ ".js") := by
  refine ⟨?_, ?_, ?_, ?_⟩
  · simp [exportEventsCode, codeFileNamesFrom_length]
  · simpa using codeFileNamesFrom_getElem "code" 0 p.layouts.length i hi
  · simp [exportExternalSourceFiles, codeFileNamesFrom_length]
  · simpa using
      codeFileNamesFrom_getElem "ext-code" 0 p.externalSourceFiles.length
        j hj

/-- Witness for C2: a project with two scenes and one external source file
yields modules `code0.js`, `code1.js` and `ext-code0.js`. -/
theorem c2_witness :
    (exportEventsCode ⟨["First scene", "Second scene"], ["ext.js"]⟩
        [])[1]? = some "code1.js" ∧
    (exportExternalSourceFiles
        ⟨["First scene", "Second scene"], ["ext.js"]⟩ [])[0]?
      = some "ext-code0.js" :=
  ⟨(c2_ordinal_module_names ⟨["First scene", "Second scene"], ["ext.js"]⟩
        1 0 (by decide) (by decide)).2.1,
    (c2_ordinal_module_names ⟨["First scene", "Second scene"], ["ext.js"]⟩
        1 0 (by decide) (by decide)).2.2.2⟩

/-- C9: a `PreviewExportOptions` constructed from a project and an export
path alone starts in a well-defined default state: `projectDataOnlyExport`
is `false`, the debugger server address and port are empty, the initial
layout and external-layout names are empty, and the include-file hash map
is empty. -/
theorem c9_preview_options_default_state (project : GdProject)
    (exportPath : String) :
    (mkPreviewExportOptions project exportPath).projectDataOnlyExport
        = false ∧
    (mkPreviewExportOptions project exportPath).debuggerServerAddress = "" ∧
    (mkPreviewExportOptions project exportPath).debuggerServerPort = "" ∧
    (mkPreviewExportOptions project exportPath).layoutName = "" ∧
    (mkPreviewExportOptions project exportPath).externalLayoutName = "" ∧
    (mkPreviewExportOptions project exportPath).includeFileHashes = [] ∧
    (mkPreviewExportOptions project exportPath).project = project ∧
    (mkPreviewExportOptions project exportPath).exportPath = exportPath :=
  ⟨rfl, rfl, rfl, rfl, rfl, rfl, rfl, rfl⟩

/-- C10: each `PreviewExportOptions` setter modifies only its own field(s),
leaves every other field unchanged, setters over distinct fields commute,
and calling `SetIncludeFileHash` twice for the same include file keeps only
the last hash. -/
theorem c10_setters_frame_commute_lastwins (o : PreviewExportOptions)
    (address port s t k : String) (v v₁ v₂ : Int) (b : Bool) :
    ((SetDebuggerServerAddress o address port).debuggerServerAddress
        = address ∧
      (SetDebuggerServerAddress o address port).debuggerServerPort = port ∧
      (SetDebuggerServerAddress o address port).project = o.project ∧
      (SetDebuggerServerAddress o address port).exportPath = o.exportPath ∧
      (SetDebuggerServerAddress o address port).layoutName = o.layoutName ∧
      (SetDebuggerServerAddress o address port).externalLayoutName
        = o.externalLayoutName ∧
      (SetDebuggerServerAddress o address port).includeFileHashes
        = o.includeFileHashes ∧
      (SetDebuggerServerAddress o address port).projectDataOnlyExport
        = o.projectDataOnlyExport) ∧
    ((SetLayoutName o s).layoutName = s ∧
      (SetLayoutName o s).project = o.project ∧
      (SetLayoutName o s).exportPath = o.exportPath ∧
      (SetLayoutName o s).debuggerServerAddress = o.debuggerServerAddress ∧
      (SetLayoutName o s).debuggerServerPort = o.debuggerServerPort ∧
      (SetLayoutName o s).externalLayoutName = o.externalLayoutName ∧
      (SetLayoutName o s).includeFileHashes = o.includeFileHashes ∧
      (SetLayoutName o s).projectDataOnlyExport
        = o.projectDataOnlyExport) ∧
    ((SetExternalLayoutName o t).externalLayoutName = t ∧
      (SetExternalLayoutName o t).project = o.project ∧
      (SetExternalLayoutName o t).exportPath = o.exportPath ∧
      (SetExternalLayoutName o t).debuggerServerAddress
        = o.debuggerServerAddress ∧
      (SetExternalLayoutName o t).debuggerServerPort
        = o.debuggerServerPort ∧
      (SetExternalLayoutName o t).layoutName = o.layoutName ∧
      (SetExternalLayoutName o t).includeFileHashes = o.includeFileHashes ∧
      (SetExternalLayoutName o t).projectDataOnlyExport
        = o.projectDataOnlyExport) ∧
    ((SetIncludeFileHash o k v).includeFileHashes
        = mapInsert o.includeFileHashes k v ∧
      (SetIncludeFileHash o k v).project = o.project ∧
      (SetIncludeFileHash o k v).exportPath = o.exportPath ∧
      (SetIncludeFileHash o k v).debuggerServerAddress
        = o.debuggerServerAddress ∧
      (SetIncludeFileHash o k v).debuggerServerPort
        = o.debuggerServerPort ∧
      (SetIncludeFileHash o k v).layoutName = o.layoutName ∧
      (SetIncludeFileHash o k v).externalLayoutName
        = o.externalLayoutName ∧
      (SetIncludeFileHash o k v).projectDataOnlyExport
        = o.projectDataOnlyExport) ∧
    ((SetProjectDataOnlyExport o b).projectDataOnlyExport = b ∧
      (SetProjectDataOnlyExport o b).project = o.project ∧
      (SetProjectDataOnlyExport o b).exportPath = o.exportPath ∧
      (SetProjectDataOnlyExport o b).debuggerServerAddress
        = o.debuggerServerAddress ∧
      (SetProjectDataOnlyExport o b).debuggerServerPort
        = o.debuggerServerPort ∧
      (SetProjectDataOnlyExport o b).layoutName = o.layoutName ∧
      (SetProjectDataOnlyExport o b).externalLayoutName
        = o.externalLayoutName ∧
      (SetProjectDataOnlyExport o b).includeFileHashes
        = o.includeFileHashes) ∧
    (SetLayoutName (SetDebuggerServerAddress o address port) s
        = SetDebuggerServerAddress (SetLayoutName o s) address port ∧
      SetExternalLayoutName (SetDebuggerServerAddress o address port) t
        = SetDebuggerServerAddress (SetExternalLayoutName o t) address port ∧
      SetIncludeFileHash (SetDebuggerServerAddress o address port) k v
        = SetDebuggerServerAddress (SetIncludeFileHash o k v) address port ∧
      SetProjectDataOnlyExport (SetDebuggerServerAddress o address port) b
        = SetDebuggerServerAddress (SetProjectDataOnlyExport o b)
            address port ∧
      SetExternalLayoutName (SetLayoutName o s) t
        = SetLayoutName (SetExternalLayoutName o t) s ∧
      SetIncludeFileHash (SetLayoutName o s) k v
        = SetLayoutName (SetIncludeFileHash o k v) s ∧
      SetProjectDataOnlyExport (SetLayoutName o s) b
        = SetLayoutName (SetProjectDataOnlyExport o b) s ∧
      SetIncludeFileHash (SetExternalLayoutName o t) k v
        = SetExternalLayoutName (SetIncludeFileHash o k v) t ∧
      SetProjectDataOnlyExport (SetExternalLayoutName o t) b
        = SetExternalLayoutName (SetProjectDataOnlyExport o b) t ∧
      SetProjectDataOnlyExport (SetIncludeFileHash o k v) b
        = SetIncludeFileHash (SetProjectDataOnlyExport o b) k v) ∧
    SetIncludeFileHash (SetIncludeFileHash o k v₁) k v₂
      = SetIncludeFileHash o k v₂ := by
  refine ⟨⟨rfl, rfl, rfl, rfl, rfl, rfl, rfl, rfl⟩,
    ⟨rfl, rfl, rfl, rfl, rfl, rfl, rfl, rfl⟩,
    ⟨rfl, rfl, rfl, rfl, rfl, rfl, rfl, rfl⟩,
    ⟨rfl, rfl, rfl, rfl, rfl, rfl, rfl, rfl⟩,
    ⟨rfl, rfl, rfl, rfl, rfl, rfl, rfl, rfl⟩,
    ⟨rfl, rfl, rfl, rfl, rfl, rfl, rfl, rfl, rfl, rfl⟩, ?_⟩
  simp [SetIncludeFileHash, mapInsert_mapInsert_same]

theorem dropWhile_mergeable_append (run rest : List Module)
    (h : ∀ m ∈ run, mergeable m = true) :
    List.dropWhile mergeable (run ++ rest)
      = List.dropWhile mergeable rest := by
  induction run with
  | nil => rfl
  | cons a tl ih =>
      have ha := h a (List.mem_cons_self a tl)
      rw [List.cons_append, List.dropWhile_cons, if_pos ha]
      exact ih fun m hm => h m (List.mem_cons_of_mem a hm)

theorem mergeContiguousRun_spec (pre run post : List Module) (sep : Module)
    (hpre : ∀ m ∈ pre, mergeable m = false)
    (hrun : run ≠ [])
    (hrunAll : ∀ m ∈ run, mergeable m = true)
    (hsep : mergeable sep = false) :
    mergeContiguousRun (pre ++ (run ++ sep :: post))
      = pre ++ mergedModule :: sep :: post := by
  induction pre with
  | nil =>
      cases run with
      | nil => exact absurd rfl hrun
      | cons r rtl =>
          have hr := hrunAll r (List.mem_cons_self r rtl)
          simp only [List.nil_append, List.cons_append, List.append_eq,
            mergeContiguousRun, hr, if_true]
          rw [show r :: (rtl ++ sep :: post)
              = (r :: rtl) ++ sep :: post from rfl,
            dropWhile_mergeable_append (r :: rtl) (sep :: post) hrunAll,
            List.dropWhile_cons, if_neg (by simp [hsep])]
  | cons a atl ih =>
      have ha := hpre a (List.mem_cons_self a atl)
      simp only [List.cons_append, List.append_eq, mergeContiguousRun, ha,
        Bool.false_eq_true, if_false]
      exact congrArg (a :: ·)
        (ih fun m hm => hpre m (List.mem_cons_of_mem a hm))

/-- C4: when minification is requested, `ExportIncludesAndLibs` merges
exactly the contiguous run of mergeable modules: the replacement takes the
position of the first merged module, all merged originals are removed, and
modules separated from the run by a non-mergeable module are never pulled
into the merge; in particular `[A(static), B(generated), C(non-mergeable),
D(static)]` merges to `[AB-merged, C, D]`, never `[ABD-merged, C]`. -/
theorem c4_minify_merges_contiguous_run (pre run post : List Module)
    (sep : Module) (pa pb pc pd : String)
    (hpre : ∀ m ∈ pre, mergeable m = false) (hrun : run ≠ [])
    (hrunAll : ∀ m ∈ run, mergeable m = true)
    (hsep : mergeable sep = false) :
    ExportIncludesAndLibs (pre ++ (run ++ sep :: post)) true
      = pre ++ mergedModule :: sep :: post ∧
    ExportIncludesAndLibs
        [⟨pa, ModuleKind.staticLib⟩, ⟨pb, ModuleKind.generated⟩,
         ⟨pc, ModuleKind.nonMergeable⟩, ⟨pd, ModuleKind.staticLib⟩] true
      = [mergedModule, ⟨pc, ModuleKind.nonMergeable⟩,
         ⟨pd, ModuleKind.staticLib⟩] := by
  constructor
  · simpa [ExportIncludesAndLibs] using
      mergeContiguousRun_spec pre run post sep hpre hrun hrunAll hsep
  · have h := mergeContiguousRun_spec []
      [⟨pa, ModuleKind.staticLib⟩, ⟨pb, ModuleKind.generated⟩]
      [⟨pd, ModuleKind.staticLib⟩] ⟨pc, ModuleKind.nonMergeable⟩
      (by simp) (by simp)
      (by
        intro m hm
        simp only [List.mem_cons, List.not_mem_nil, or_false] at hm
        rcases hm with rfl | rfl <;> rfl)
      rfl
    simpa [ExportIncludesAndLibs] using h

/-- Witness for C4: a concrete four-module list with a non-mergeable third
module merges its first two modules only. -/
theorem c4_witness :
    ExportIncludesAndLibs
        [⟨"runtimescene.js", ModuleKind.staticLib⟩,
         ⟨"code0.js", ModuleKind.generated⟩,
         ⟨"libs/external.js", ModuleKind.nonMergeable⟩,
         ⟨"runtimegame.js", ModuleKind.staticLib⟩] true
      = [mergedModule, ⟨"libs/external.js", ModuleKind.nonMergeable⟩,
         ⟨"runtimegame.js", ModuleKind.staticLib⟩] :=
  (c4_minify_merges_contiguous_run []
      [⟨"a.js", ModuleKind.staticLib⟩] [] ⟨"n.js", ModuleKind.nonMergeable⟩
      "runtimescene.js" "code0.js" "libs/external.js" "runtimegame.js"
      (by simp) (by simp) (by decide) rfl).2

/-- C5: for every template and every substitution context, either the
substitution succeeds and every marker present in the template had a
matching replacement (so no literal marker text remains and no marker is
silently deleted), or the export fails with an error naming an unresolved
marker that is present in the template. -/
theorem c5_markers_replaced_or_named_error (ctx : List (String × String))
    (tpl : List TemplatePart) :
    (∃ doc, CompleteIndexFile ctx tpl = Except.ok doc ∧
      ∀ n ∈ markerNames tpl, (mapFind ctx n).isSome = true) ∨
    (∃ n, CompleteIndexFile ctx tpl = Except.error n ∧
      n ∈ markerNames tpl ∧ mapFind ctx n = none) := by
  induction tpl with
  | nil => exact Or.inl ⟨"", rfl, by simp [markerNames]⟩
  | cons part rest ih =>
      cases part with
      | text s =>
          rcases ih with ⟨doc, hok, hall⟩ | ⟨n, herr, hmem, hnone⟩
          · exact Or.inl ⟨s ++ doc, by simp [CompleteIndexFile, hok],
              by simpa [markerNames] using hall⟩
          · exact Or.inr ⟨n, by simp [CompleteIndexFile, herr],
              by simpa [markerNames] using hmem, hnone⟩
      | marker n =>
          cases hfind : mapFind ctx n with
          | none =>
              exact Or.inr ⟨n, by simp [CompleteIndexFile, hfind],
                by simp [markerNames], hfind⟩
          | some v =>
              rcases ih with ⟨doc, hok, hall⟩ | ⟨m, herr, hmem, hnone⟩
              · refine Or.inl ⟨v ++ doc,
                  by simp [CompleteIndexFile, hfind, hok], ?_⟩
                intro m hm
                rcases (by simpa [markerNames] using hm :
                    m = n ∨ m ∈ markerNames rest) with rfl | hm'
                · simp [hfind]
                · exact hall m hm'
              · exact Or.inr ⟨m, by simp [CompleteIndexFile, hfind, herr],
                  by simp [markerNames, hmem], hnone⟩

/-- C6: the orchestrator runs the stages strictly in sequence, halts at
the first failing stage, returns `false`, and `GetLastError` reports
exactly that first failure's message, ignoring later stages; when every
stage succeeds the export returns `true` and no error is recorded. -/
theorem c6_first_failure_halts (helper : ExporterHelper)
    (pre post : List (Except String Unit)) (e : String)
    (hpre : ∀ s ∈ pre, s = Except.ok ()) :
    ExportProjectForPixiPreview helper (pre ++ Except.error e :: post)
      = ({ helper with lastError := e }, false) ∧
    GetLastError
        (ExportProjectForPixiPreview helper
          (pre ++ Except.error e :: post)).1 = e ∧
    (ExportProjectForPixiPreview helper
        (pre ++ Except.error e :: post)).2 = false ∧
    (∀ stages, (∀ s ∈ stages, s = Except.ok ()) →
      ExportProjectForPixiPreview helper stages = (helper, true)) := by
  have hmain : ∀ (pre : List (Except String Unit)),
      (∀ s ∈ pre, s = Except.ok ()) →
      ExportProjectForPixiPreview helper (pre ++ Except.error e :: post)
        = ({ helper with lastError := e }, false) := by
    intro pre hpre
    induction pre with
    | nil => rfl
    | cons s tl ih =>
        have hs := hpre s (List.mem_cons_self s tl)
        subst hs
        simp only [List.cons_append, ExportProjectForPixiPreview]
        exact ih fun a ha => hpre a (List.mem_cons_of_mem _ ha)
  have hall : ∀ stages, (∀ s ∈ stages, s = Except.ok ()) →
      ExportProjectForPixiPreview helper stages = (helper, true) := by
    intro stages hstages
    induction stages with
    | nil => rfl
    | cons s tl ih =>
        have hs := hstages s (List.mem_cons_self s tl)
        subst hs
        simp only [ExportProjectForPixiPreview]
        exact ih fun a ha => hstages a (List.mem_cons_of_mem _ ha)
  refine ⟨hmain pre hpre, ?_, ?_, hall⟩
  · rw [hmain pre hpre]; rfl
  · rw [hmain pre hpre]

/-- Witness for C6: with one succeeding stage, then a failing stage, then
another failing stage, the export returns `false` and reports exactly the
first failure's message. -/
theorem c6_witness :
    ExportProjectForPixiPreview ⟨""⟩
        [Except.ok (), Except.error "IOError: cannot write index.html",
         Except.error "later error"]
      = (⟨"IOError: cannot write index.html"⟩, false) :=
  (c6_first_failure_halts ⟨""⟩ [Except.ok ()] [Except.error "later error"]
      "IOError: cannot write index.html"
      (fun s hs => by simpa using hs)).1

/-- C7: the module list of a preview export is a deterministic function of
the request: two invocations on the same options (with minification
disabled, so the materializer leaves the list unchanged) produce lists of
identical length, identical order, and identical per-module paths. -/
theorem c7_module_list_deterministic (o : PreviewExportOptions)
    (run₁ run₂ : List String)
    (h₁ : run₁ = buildPreviewModuleList o)
    (h₂ : run₂ = buildPreviewModuleList o) :
    run₁.length = run₂.length ∧ (∀ i : Nat, run₁[i]? = run₂[i]?) ∧
      run₁ = run₂ := by
  subst h₁
  subst h₂
  exact ⟨rfl, fun i => rfl, rfl⟩

/-- Witness for C7: two preview exports of a one-scene project agree. -/
theorem c7_witness :
    (buildPreviewModuleList (mkPreviewExportOptions ⟨["Scene"], []⟩ "/out"))
      = (buildPreviewModuleList
          (mkPreviewExportOptions ⟨["Scene"], []⟩ "/out")) :=
  (c7_module_list_deterministic
      (mkPreviewExportOptions ⟨["Scene"], []⟩ "/out") _ _ rfl rfl).2.2

theorem mem_codeFileNamesFrom (base : String) (s n : Nat) (x : String)
    (hx : x ∈ codeFileNamesFrom base s n) :
    ∃ i : Nat, x = base ++ toString i ++ ".js" := by
  induction n generalizing s with
  | zero => simp [codeFileNamesFrom] at hx
  | succ k ih =>
      simp only [codeFileNamesFrom, List.mem_cons] at hx
      rcases hx with rfl | hx
      · exact ⟨s, rfl⟩
      · exact ih (s + 1) hx

theorem code_name_ne_dbgfile (t u : String) :
    "code" ++ t ++ u ≠ websocketDebuggerClientFile := by
  intro h
  have hd := congrArg String.data h
  rw [String.data_append ("code" ++ t) u, String.data_append "code" t]
    at hd
  have h1 : (("code".data ++ t.data) ++ u.data).head? = some 'c' := rfl
  rw [hd] at h1
  exact absurd h1 (by decide)

theorem extcode_name_ne_dbgfile (t u : String) :
    "ext-code" ++ t ++ u ≠ websocketDebuggerClientFile := by
  intro h
  have hd := congrArg String.data h
  rw [String.data_append ("ext-code" ++ t) u,
    String.data_append "ext-code" t] at hd
  have h1 : (("ext-code".data ++ t.data) ++ u.data).head? = some 'e' := rfl
  rw [hd] at h1
  exact absurd h1 (by decide)

theorem dbgfile_not_mem_codeNames (s n : Nat) :
    websocketDebuggerClientFile ∉ codeFileNamesFrom "code" s n := by
  intro h
  rcases mem_codeFileNamesFrom "code" s n _ h with ⟨i, hi⟩
  exact code_name_ne_dbgfile (toString i) ".js" hi.symm

theorem dbgfile_not_mem_extCodeNames (s n : Nat) :
    websocketDebuggerClientFile ∉ codeFileNamesFrom "ext-code" s n := by
  intro h
  rcases mem_codeFileNamesFrom "ext-code" s n _ h with ⟨i, hi⟩
  exact extcode_name_ne_dbgfile (toString i) ".js" hi.symm

theorem buildPreviewModuleList_eq (o : PreviewExportOptions) :
    buildPreviewModuleList o
      = AddLibsInclude true false (hasDebuggerEndpoint o) [] ++
        (codeFileNamesFrom "code" 0 o.project.layouts.length ++
          codeFileNamesFrom "ext-code" 0
            o.project.externalSourceFiles.length) := by
  simp [buildPreviewModuleList, exportEventsCode,
    exportExternalSourceFiles, List.append_assoc]

theorem libs_noDbg :
    AddLibsInclude true false false []
      = runtimeCoreFiles ++ pixiRendererFiles := by decide

theorem libs_withDbg :
    AddLibsInclude true false true []
      = (runtimeCoreFiles ++ pixiRendererFiles)
          ++ [websocketDebuggerClientFile] := by decide

/-- C8: the debugger-client module is part of the preview module list
exactly when a debugger endpoint (address and port) is configured on the
options, and erasing it from the with-endpoint list yields exactly the
without-endpoint list, so no other module (in particular no ordinal
`codeX` / `ext-codeX` name) is changed or shifted by its absence. -/
theorem c8_debugger_module_iff_endpoint (o : PreviewExportOptions) :
    (websocketDebuggerClientFile ∈ buildPreviewModuleList o ↔
      hasDebuggerEndpoint o = true) ∧
    (buildPreviewModuleList o).filter
        (fun f => !(f == websocketDebuggerClientFile))
      = buildPreviewModuleList (SetDebuggerServerAddress o "" "") := by
  have hRHS : buildPreviewModuleList (SetDebuggerServerAddress o "" "")
      = (runtimeCoreFiles ++ pixiRendererFiles) ++
        (codeFileNamesFrom "code" 0 o.project.layouts.length ++
          codeFileNamesFrom "ext-code" 0
            o.project.externalSourceFiles.length) := by
    rw [buildPreviewModuleList_eq]
    rw [show hasDebuggerEndpoint (SetDebuggerServerAddress o "" "")
        = false from rfl, libs_noDbg]
    rfl
  have hfcodes :
      (codeFileNamesFrom "code" 0 o.project.layouts.length).filter
          (fun f => !(f == websocketDebuggerClientFile))
        = codeFileNamesFrom "code" 0 o.project.layouts.length := by
    apply List.filter_eq_self.mpr
    intro x hx
    rcases mem_codeFileNamesFrom _ _ _ _ hx with ⟨i, rfl⟩
    simp [beq_eq_false_iff_ne.mpr
      (code_name_ne_dbgfile (toString i) ".js")]
  have hfexts :
      (codeFileNamesFrom "ext-code" 0
            o.project.externalSourceFiles.length).filter
          (fun f => !(f == websocketDebuggerClientFile))
        = codeFileNamesFrom "ext-code" 0
            o.project.externalSourceFiles.length := by
    apply List.filter_eq_self.mpr
    intro x hx
    rcases mem_codeFileNamesFrom _ _ _ _ hx with ⟨i, rfl⟩
    simp [beq_eq_false_iff_ne.mpr
      (extcode_name_ne_dbgfile (toString i) ".js")]
  cases hb : hasDebuggerEndpoint o with
  | true =>
      constructor
      · rw [buildPreviewModuleList_eq, hb, libs_withDbg]
        simp
      · have hA₁ : runtimeCoreFiles.filter
              (fun f => !(f == websocketDebuggerClientFile))
            = runtimeCoreFiles := by decide
        have hA₂ : pixiRendererFiles.filter
              (fun f => !(f == websocketDebuggerClientFile))
            = pixiRendererFiles := by decide
        have hD : ([websocketDebuggerClientFile]).filter
              (fun f => !(f == websocketDebuggerClientFile))
            = [] := by decide
        rw [buildPreviewModuleList_eq, hb, libs_withDbg, hRHS]
        simp [List.filter_append, hA₁, hA₂, hD, hfcodes, hfexts]
  | false =>
      constructor
      · rw [buildPreviewModuleList_eq, hb, libs_noDbg]
        simp only [List.mem_append, Bool.false_eq_true, iff_false]
        rintro (h | h | h)
        · exact absurd h (by decide)
        · exact dbgfile_not_mem_codeNames 0 _ h
        · exact dbgfile_not_mem_extCodeNames 0 _ h
      · rw [buildPreviewModuleList_eq, hb, libs_noDbg, hRHS]
        apply List.filter_eq_self.mpr
        intro x hx
        rcases List.mem_append.mp hx with hx | hx
        · exact (by decide :
            ∀ y ∈ runtimeCoreFiles ++ pixiRendererFiles,
              (!(y == websocketDebuggerClientFile)) = true) x hx
        rcases List.mem_append.mp hx with hx | hx
        · rcases mem_codeFileNamesFrom _ _ _ _ hx with ⟨i, rfl⟩
          simp [beq_eq_false_iff_ne.mpr
            (code_name_ne_dbgfile (toString i) ".js")]
        · rcases mem_codeFileNamesFrom _ _ _ _ hx with ⟨i, rfl⟩
          simp [beq_eq_false_iff_ne.mpr
            (extcode_name_ne_dbgfile (toString i) ".js")]

end GdjsExport
